import Mathlib

/-!
Shallow embedding of `src/old_archiver/queue.mjs` (the download-queue
subsystem of anyland-archive-redux).

Modelling conventions, chosen to mirror the JavaScript semantics:

* A JS object built by this module has a fixed set of properties, so it is
  embedded as a Lean structure.  A read of a property that the object does
  NOT have yields JS `undefined`; such reads are embedded as functions
  returning `none` (a present string property is `some s` when compared
  against it).  `undefined === s` is false for every string `s`, which is
  `none == some s = false` in the model.
* A thrown JS exception is `Except.error`.  Promise settlement is modelled
  by collecting every `resolve`/`reject` the callback executes, in order;
  the promise's outcome is the FIRST settlement (later ones are no-ops),
  while the callback's side effects on module state continue to happen.
* The module's external collaborators (`request`, `isAreaArchived`,
  `getAreaIdentifiers`, `archiveArea`, the log writers) are parameters:
  oracles passed to each operation.  `getSubAreas` is repository code that
  is not under src/, so it is modelled from the spec (see its doc comment).
* Module state (`downloadQueue`, `failedAreas`, plus the externally kept
  outcome logs, which we track to state bookkeeping properties) is an
  explicit record threaded through the operations.
-/

/-- Identifiers returned by the external resolver `getAreaIdentifiers`
(spec: `resolveIdentifiers(rawId, forceRefresh) -> \x7bid, key, payload\x7d`). -/
structure Identifiers where
  id : String
  key : String
  areaData : String
deriving DecidableEq, Repr

/-- A queue entry exactly as constructed at queue.mjs lines 47-54: properties
`name`, `id`, `key`, `subArea`, `parentId`, `areaData` and no others.  In
particular the entry has NO `areaId` property. -/
structure QueueEntry where
  name : String
  id : String
  key : String
  subArea : Bool
  parentId : Option String
  areaData : String
deriving DecidableEq, Repr

/-- JS read `area.areaId` on a queue entry (queue.mjs line 99): the property
is absent from the objects this module ever stores, so the read yields
`undefined`, i.e. `none`. -/
def QueueEntry.areaId (_ : QueueEntry) : Option String := none

/-- JS read `area.areaName` on an element of `failedAreas` (queue.mjs line
111): `failedAreas` holds plain name strings (lines 63, 128, 133), and a
string has no `areaName` property, so the read yields `undefined`. -/
def String.areaName (_ : String) : Option String := none

/-- One element of the parsed `results.areas` list: the search response
carries `name` and `id` for each area (used at lines 42-64). -/
structure SearchArea where
  name : String
  id : String
deriving DecidableEq, Repr

/-- JS read `results.areas[i].areaId` (queue.mjs line 64): search results
carry `id`, not `areaId`, so the read yields `undefined`. -/
def SearchArea.areaId (_ : SearchArea) : Option String := none

/-- JS read `results.areas[i].areaKey` (queue.mjs line 64): absent property,
so the read yields `undefined`. -/
def SearchArea.areaKey (_ : SearchArea) : Option String := none

/-- A durable record written through the outcome recorder: `addArchiveLog`
(success, line 126) or `logFailedArchive` (failure, lines 64 and 129).
`Option String` arguments are JS values that may be `undefined`. -/
inductive LogEntry where
  | success (name id key : String) (subArea : Bool) (parentId : Option String)
  | failure (name : String) (id key : Option String) (msg : String)
deriving DecidableEq, Repr

/-- The module state: `downloadQueue` and `failedAreas` (queue.mjs lines
5-6), plus the sequence of records handed to the outcome recorder. -/
structure QState where
  downloadQueue : List QueueEntry
  failedAreas : List String
  log : List LogEntry
deriving DecidableEq, Repr

/-- queue.mjs lines 14-16, `appendDownloadQueue`: concatenate caller items
onto the queue verbatim. -/
def appendDownloadQueue (items : List QueueEntry) (st : QState) : QState :=
  { st with downloadQueue := st.downloadQueue ++ items }

/-- queue.mjs lines 97-101, `isInDownloadQueue`: `downloadQueue.some(area =>
area.areaId === areaId)`. -/
def isInDownloadQueue (downloadQueue : List QueueEntry) (areaId : String) : Bool :=
  downloadQueue.any fun area => area.areaId == some areaId

/-- queue.mjs lines 109-113, `isInFailedAreas`: `failedAreas.some(area =>
area.areaName === areaName)`. -/
def isInFailedAreas (failedAreas : List String) (areaName : String) : Bool :=
  failedAreas.any fun area => area.areaName == some areaName

/-- Outcome of the external `archiveArea` call (spec §6: returns
`\x7bsuccess, msg\x7d` or throws an error carrying `msg`). -/
inductive ArchiveOutcome where
  | ret (success : Bool) (msg : String)
  | thrown (msg : String)
deriving DecidableEq, Repr

/-- External oracles consumed by the module: `isAreaArchived` (utils.mjs),
`getAreaIdentifiers` and the raw child list behind `getSubAreas` (area.mjs),
and `archiveArea` (area.mjs).  A call that throws is `Except.error`. -/
structure Oracles where
  isAreaArchived : String → String → Bool
  getAreaIdentifiers : String → Except String Identifiers
  subAreasOf : String → Except String (List SearchArea)
  archiveArea : String → String → String → String → ArchiveOutcome

/-- Modelled from the spec: `getSubAreas` lives in `src/old_archiver/area.mjs`,
which is not part of src/.  Spec §4.2/§4.4: child discovery for a resolved id
returns a list of QueueEntry-ish records, appended "as QueueEntry with
`isSubItem=true`, `parentId=<resolved id>`, in the order returned", and may
fail (errors propagate to the caller).  The raw per-child data comes from the
`subAreasOf` oracle. -/
def getSubAreas (o : Oracles) (resolvedId : String) : Except String (List QueueEntry) :=
  (o.subAreasOf resolvedId).map fun cs =>
    cs.map fun c =>
      { name := c.name, id := c.id, key := "", subArea := true,
        parentId := some resolvedId, areaData := "" : QueueEntry }

/-- Per-area body of the `queueSearch` loop, queue.mjs lines 43-65: the
dedup guard (line 44), identifier resolution, push of the root entry, child
expansion, and the per-area `catch` that records the failure (lines 61-65).
The accumulator carries the module state and the pass-local `queueAreas`
buffer. -/
def searchLoopStep (o : Oracles) (acc : QState × List QueueEntry) (a : SearchArea) :
    QState × List QueueEntry :=
  let st := acc.1
  let queueAreas := acc.2
  if o.isAreaArchived a.name a.id || isInDownloadQueue st.downloadQueue a.id
      || isInFailedAreas st.failedAreas a.name then
    (st, queueAreas)
  else
    match o.getAreaIdentifiers a.id with
    | Except.error e =>
        ({ st with failedAreas := st.failedAreas ++ [a.name],
                   log := st.log ++ [LogEntry.failure a.name a.areaId a.areaKey e] },
         queueAreas)
    | Except.ok identifiers =>
        let queueAreas := queueAreas ++
          [{ name := a.name, id := identifiers.id, key := identifiers.key,
             subArea := false, parentId := none, areaData := identifiers.areaData }]
        match getSubAreas o identifiers.id with
        | Except.error e =>
            ({ st with failedAreas := st.failedAreas ++ [a.name],
                       log := st.log ++ [LogEntry.failure a.name a.areaId a.areaKey e] },
             queueAreas)
        | Except.ok subAreas =>
            (st, if subAreas.length ≠ 0 then queueAreas ++ subAreas else queueAreas)

/-- The `for` loop of `queueSearch`, queue.mjs lines 40-66, starting from an
empty `queueAreas` buffer. -/
def runSearchLoop (o : Oracles) (st : QState) (areas : List SearchArea) :
    QState × List QueueEntry :=
  areas.foldl (searchLoopStep o) (st, [])

/-- Shape of the parsed response body's `areas` field: absent (`undefined`),
present but without a numeric `length` (non-list), or a proper list. -/
inductive AreasField where
  | missing
  | nonList
  | list (l : List SearchArea)

/-- Parsed or unparsable response body: `malformed e` means `JSON.parse`
throws `e`; otherwise the body parses to an object with a truthiness flag
for its `error` field and an `areas` field. -/
inductive Body where
  | malformed (e : String)
  | results (hasError : Bool) (areas : AreasField)

/-- Transport outcome delivered to the `request` callback: the `error`
argument (`none` = falsy) and the `response` argument (`none` = undefined
response, `some none` = response without body, `some (some b)` = body). -/
structure Transport where
  error : Option String
  response : Option (Option Body)

/-- First settlement wins: a JS promise keeps the first `resolve`/`reject`
executed and ignores the rest. -/
def firstSettle (settles : List (Except String Unit)) : Except String Unit :=
  settles.headD (Except.ok ())

/-- The `request` callback of `queueSearch`, queue.mjs lines 32-75, executed
on transport outcome `t` in state `st`.  Returns the promise's settlement
and the final module state.  Each `reject` in the source lacks a `return`,
so execution continues past it; only a thrown exception (caught at line 72)
stops the callback.  `JSON.parse(undefined)` throws a SyntaxError. -/
def searchCallback (o : Oracles) (t : Transport) (st : QState) :
    Except String Unit × QState :=
  let s1 : List (Except String Unit) :=
    match t.error with
    | some e => [Except.error e]
    | none => []
  let s2 : List (Except String Unit) :=
    s1 ++ (match t.response with
           | none => [Except.error "Missing body"]
           | some none => [Except.error "Missing body"]
           | some (some _) => [])
  match t.response with
  | none => (firstSettle (s2 ++ [Except.error "SyntaxError"]), st)
  | some none => (firstSettle (s2 ++ [Except.error "SyntaxError"]), st)
  | some (some (Body.malformed e)) => (firstSettle (s2 ++ [Except.error e]), st)
  | some (some (Body.results hasError areasField)) =>
    let s3 := s2 ++ (if hasError then [Except.error "Missing body"] else [])
    match areasField with
    | AreasField.missing =>
        (firstSettle (s3 ++ [Except.error "No areas found in response",
                             Except.error "TypeError"]), st)
    | AreasField.nonList =>
        (firstSettle (s3 ++ [Except.error "No areas found in response",
                             Except.ok ()]), st)
    | AreasField.list areas =>
        let r := runSearchLoop o st areas
        let st'' :=
          if r.2.length ≠ 0 then
            { r.1 with downloadQueue := r.1.downloadQueue ++ r.2 }
          else r.1
        (firstSettle (s3 ++ [Except.ok ()]), st'')

/-- queue.mjs lines 24-77, `queueSearch`: lowercases the query, posts it to
the search endpoint (the `net` oracle yields the transport outcome for the
posted term), and runs the callback. -/
def queueSearch (o : Oracles) (net : String → Transport) (query : String)
    (st : QState) : Except String Unit × QState :=
  searchCallback o (net query.toLower) st

/-- A JavaScript error escaping a function.  `processQueueStep`'s catch
block (queue.mjs lines 131-135) references the identifier `areaName`, which
is not declared anywhere in the module, so evaluating it throws a
ReferenceError that escapes the async function. -/
inductive JsError where
  | referenceError (varName : String)
deriving DecidableEq, Repr

/-- Continuation of `processQueueStep` after the awaited `archiveArea` call
settles for the already-popped entry `areaData` (queue.mjs lines 123-135).
Returns the updated state and an error escaping the tick, if any. -/
def finishStep (o : Oracles) (st : QState) (areaData : QueueEntry) :
    QState × Option JsError :=
  match o.archiveArea areaData.name areaData.id areaData.key areaData.areaData with
  | ArchiveOutcome.ret true _ =>
      ({ st with log := st.log ++ [LogEntry.success areaData.name areaData.id
                                     areaData.key areaData.subArea areaData.parentId] },
       none)
  | ArchiveOutcome.ret false msg =>
      ({ st with failedAreas := st.failedAreas ++ [areaData.name],
                 log := st.log ++ [LogEntry.failure areaData.name (some areaData.id)
                                     (some areaData.key) msg] },
       none)
  | ArchiveOutcome.thrown _ =>
      (st, some (JsError.referenceError "areaName"))

/-- queue.mjs lines 118-136, `processQueueStep`, as one sequential tick: no-op
on an empty queue, otherwise `shift` the front entry, await `archiveArea`,
and do the outcome bookkeeping (or hit the broken catch block). -/
def processQueueStep (o : Oracles) (st : QState) : QState × Option JsError :=
  match st.downloadQueue with
  | [] => (st, none)
  | areaData :: rest =>
      finishStep o { st with downloadQueue := rest } areaData

/-- State of the timer-driven drain loop: the module state plus the list of
`archiveArea` calls currently outstanding, each with the number of timer
intervals until its promise settles. -/
structure LoopState where
  qs : QState
  inFlight : List (QueueEntry × Nat)
deriving DecidableEq, Repr

/-- One firing of the `setInterval` timer installed at queue.mjs line 88: it
invokes `processQueueStep` regardless of whether a previous invocation is
still awaiting its `archiveArea` promise.  The synchronous prefix of
`processQueueStep` runs: if the queue is nonempty, the front entry is
shifted and its `archiveArea` call starts (`dur` gives its latency in timer
intervals); the invocation then suspends at the `await`. -/
def timerFire (dur : QueueEntry → Nat) (ls : LoopState) : LoopState :=
  match ls.qs.downloadQueue with
  | [] => ls
  | areaData :: rest =>
      { qs := { ls.qs with downloadQueue := rest },
        inFlight := ls.inFlight ++ [(areaData, dur areaData)] }

/-- One timer interval elapsing: every outstanding `archiveArea` call gets
one interval closer to settling, and each call that settles resumes its
suspended `processQueueStep` invocation (`finishStep`). -/
def completeTick (o : Oracles) (ls : LoopState) : LoopState :=
  let stepped := ls.inFlight.map fun p => (p.1, p.2 - 1)
  let finished := stepped.filter fun p => p.2 = 0
  let remaining := stepped.filter fun p => p.2 ≠ 0
  { qs := finished.foldl (fun qs p => (finishStep o qs p.1).1) ls.qs,
    inFlight := remaining }

/-- One full timer interval of the drain loop started by `startDownloadQueue`
(queue.mjs lines 83-89): the timer fires, then the interval elapses. -/
def drainTick (o : Oracles) (dur : QueueEntry → Nat) (ls : LoopState) : LoopState :=
  completeTick o (timerFire dur ls)

/-! Concrete fixtures used by the closed theorems below. -/

/-- Stub oracles: nothing archived, identifier resolution echoes the raw id,
no sub-areas, archiving always succeeds. -/
def oStub : Oracles :=
  { isAreaArchived := fun _ _ => false,
    getAreaIdentifiers := fun i => Except.ok ⟨i, "k", "d"⟩,
    subAreasOf := fun _ => Except.ok [],
    archiveArea := fun _ _ _ _ => ArchiveOutcome.ret true "ok" }

/-- Stub oracles whose `archiveArea` always throws. -/
def oThrow : Oracles :=
  { oStub with archiveArea := fun _ _ _ _ => ArchiveOutcome.thrown "io" }

/-- Stub oracles for the spec's worked example: archiving "A" succeeds,
anything else fails with message "timeout". -/
def oExample : Oracles :=
  { oStub with archiveArea := fun n _ _ _ =>
      if n == "A" then ArchiveOutcome.ret true "archived"
      else ArchiveOutcome.ret false "timeout" }

/-- Stub oracles where identifier resolution fails for raw id "u2" only. -/
def oFailU2 : Oracles :=
  { oStub with getAreaIdentifiers := fun i =>
      if i == "u2" then Except.error "boom" else Except.ok ⟨i, "k", "d"⟩ }

/-- Stub oracles where every resolved area has exactly one sub-area, raw
data ⟨"c1", "s1"⟩. -/
def oKids : Oracles :=
  { oStub with subAreasOf := fun _ => Except.ok [⟨"c1", "s1"⟩] }

/-- Stub oracles where child discovery always throws "kaboom". -/
def oSubFail : Oracles :=
  { oStub with subAreasOf := fun _ => Except.error "kaboom" }

/-- A network oracle answering every term with a well-formed search response
whose `areas` list is `l`. -/
def netOf (l : List SearchArea) : String → Transport :=
  fun _ => ⟨none, some (some (Body.results false (AreasField.list l)))⟩

/-- A network oracle answering with a response whose body carries a truthy
`error` field AND a valid `areas` list `l`. -/
def netErrorWith (l : List SearchArea) : String → Transport :=
  fun _ => ⟨none, some (some (Body.results true (AreasField.list l)))⟩

/-- The queue entry `queueSearch` builds for search hit ⟨"N", "X"⟩ under
`oStub`. -/
def entryX : QueueEntry := ⟨"N", "X", "k", false, none, "d"⟩

/-- Root entry named/identified "A" (the spec's worked example). -/
def entryA : QueueEntry := ⟨"A", "A", "", false, none, ""⟩

/-- Root entry named/identified "B" (the spec's worked example). -/
def entryB : QueueEntry := ⟨"B", "B", "", false, none, ""⟩

/-- What one iteration of the `queueSearch` loop appends to the pass-local
`queueAreas` buffer for search hit `a`: nothing when the area is skipped or
identifier resolution fails, the root entry when child discovery fails, and
the root entry followed by the sub-areas otherwise. -/
def stepDelta (o : Oracles) (a : SearchArea) : List QueueEntry :=
  if o.isAreaArchived a.name a.id then []
  else
    match o.getAreaIdentifiers a.id with
    | Except.error _ => []
    | Except.ok identifiers =>
        match getSubAreas o identifiers.id with
        | Except.error _ =>
            [{ name := a.name, id := identifiers.id, key := identifiers.key,
               subArea := false, parentId := none, areaData := identifiers.areaData }]
        | Except.ok subAreas =>
            { name := a.name, id := identifiers.id, key := identifiers.key,
              subArea := false, parentId := none,
              areaData := identifiers.areaData } :: subAreas

/-- Everything one pass of the `queueSearch` loop appends for hit list `l`. -/
def passDelta (o : Oracles) (l : List SearchArea) : List QueueEntry :=
  (l.map (stepDelta o)).flatten


/-! Basic lemmas about the dedup predicates and the search loop. -/

/-- The queue-membership predicate compares the absent `areaId` property, so
it is false for every queue and every id. -/
lemma isInDownloadQueue_eq_false (q : List QueueEntry) (i : String) :
    isInDownloadQueue q i = false := by
  simp [isInDownloadQueue, QueueEntry.areaId]

/-- The failed-name predicate compares the absent `areaName` property, so it
is false for every failed list and every name. -/
lemma isInFailedAreas_eq_false (fa : List String) (n : String) :
    isInFailedAreas fa n = false := by
  simp [isInFailedAreas, String.areaName]

lemma passDelta_nil (o : Oracles) : passDelta o [] = [] := rfl

lemma passDelta_cons (o : Oracles) (a : SearchArea) (l : List SearchArea) :
    passDelta o (a :: l) = stepDelta o a ++ passDelta o l := by
  simp [passDelta]

lemma passDelta_append (o : Oracles) (l l' : List SearchArea) :
    passDelta o (l ++ l') = passDelta o l ++ passDelta o l' := by
  simp [passDelta]

/-- One loop iteration appends exactly `stepDelta o a` to the buffer. -/
lemma searchLoopStep_snd (o : Oracles) (st : QState) (qa : List QueueEntry)
    (a : SearchArea) :
    (searchLoopStep o (st, qa) a).2 = qa ++ stepDelta o a := by
  cases harch : o.isAreaArchived a.name a.id with
  | true =>
      simp [searchLoopStep, stepDelta, harch]
  | false =>
      cases h2 : o.getAreaIdentifiers a.id with
      | error e =>
          simp [searchLoopStep, stepDelta, harch, h2,
                isInDownloadQueue_eq_false, isInFailedAreas_eq_false]
      | ok ids =>
          cases h3 : o.subAreasOf ids.id with
          | error e =>
              simp [searchLoopStep, stepDelta, getSubAreas, Except.map, harch, h2, h3,
                    isInDownloadQueue_eq_false, isInFailedAreas_eq_false]
          | ok cs =>
              cases cs with
              | nil =>
                  simp [searchLoopStep, stepDelta, getSubAreas, Except.map, harch, h2, h3,
                        isInDownloadQueue_eq_false, isInFailedAreas_eq_false]
              | cons c cs' =>
                  simp [searchLoopStep, stepDelta, getSubAreas, Except.map, harch, h2, h3,
                        isInDownloadQueue_eq_false, isInFailedAreas_eq_false]

/-- The loop body never touches `downloadQueue`. -/
lemma searchLoopStep_fst_downloadQueue (o : Oracles) (st : QState)
    (qa : List QueueEntry) (a : SearchArea) :
    (searchLoopStep o (st, qa) a).1.downloadQueue = st.downloadQueue := by
  cases harch : o.isAreaArchived a.name a.id with
  | true => simp [searchLoopStep, harch]
  | false =>
      cases h2 : o.getAreaIdentifiers a.id with
      | error e =>
          simp [searchLoopStep, harch, h2,
                isInDownloadQueue_eq_false, isInFailedAreas_eq_false]
      | ok ids =>
          cases h3 : o.subAreasOf ids.id with
          | error e =>
              simp [searchLoopStep, getSubAreas, Except.map, harch, h2, h3,
                    isInDownloadQueue_eq_false, isInFailedAreas_eq_false]
          | ok cs =>
              simp [searchLoopStep, getSubAreas, Except.map, harch, h2, h3,
                    isInDownloadQueue_eq_false, isInFailedAreas_eq_false]

/-- The loop body only ever appends to `failedAreas`. -/
lemma searchLoopStep_failedAreas_mem (o : Oracles) (st : QState)
    (qa : List QueueEntry) (a : SearchArea) (n : String)
    (h : n ∈ st.failedAreas) :
    n ∈ (searchLoopStep o (st, qa) a).1.failedAreas := by
  cases harch : o.isAreaArchived a.name a.id with
  | true => simpa [searchLoopStep, harch] using h
  | false =>
      cases h2 : o.getAreaIdentifiers a.id with
      | error e =>
          simp only [searchLoopStep, harch, h2,
                isInDownloadQueue_eq_false, isInFailedAreas_eq_false]
          simp [h]
      | ok ids =>
          cases h3 : o.subAreasOf ids.id with
          | error e =>
              simp only [searchLoopStep, getSubAreas, Except.map, harch, h2, h3,
                    isInDownloadQueue_eq_false, isInFailedAreas_eq_false]
              simp [h]
          | ok cs =>
              simp only [searchLoopStep, getSubAreas, Except.map, harch, h2, h3,
                    isInDownloadQueue_eq_false, isInFailedAreas_eq_false]
              simpa using h

/-- The loop body only ever appends to the outcome log. -/
lemma searchLoopStep_log_mem (o : Oracles) (st : QState)
    (qa : List QueueEntry) (a : SearchArea) (r : LogEntry)
    (h : r ∈ st.log) :
    r ∈ (searchLoopStep o (st, qa) a).1.log := by
  cases harch : o.isAreaArchived a.name a.id with
  | true => simpa [searchLoopStep, harch] using h
  | false =>
      cases h2 : o.getAreaIdentifiers a.id with
      | error e =>
          simp only [searchLoopStep, harch, h2,
                isInDownloadQueue_eq_false, isInFailedAreas_eq_false]
          simp [h]
      | ok ids =>
          cases h3 : o.subAreasOf ids.id with
          | error e =>
              simp only [searchLoopStep, getSubAreas, Except.map, harch, h2, h3,
                    isInDownloadQueue_eq_false, isInFailedAreas_eq_false]
              simp [h]
          | ok cs =>
              simp only [searchLoopStep, getSubAreas, Except.map, harch, h2, h3,
                    isInDownloadQueue_eq_false, isInFailedAreas_eq_false]
              simpa using h

/-- Over a whole pass, the buffer grows by exactly `passDelta o l`. -/
lemma searchLoop_snd (o : Oracles) (l : List SearchArea) :
    ∀ st qa, (l.foldl (searchLoopStep o) (st, qa)).2 = qa ++ passDelta o l := by
  induction l with
  | nil => intro st qa; simp [passDelta]
  | cons a l ih =>
      intro st qa
      rw [List.foldl_cons]
      rcases hstep : searchLoopStep o (st, qa) a with ⟨st', qa'⟩
      have h2 : qa' = qa ++ stepDelta o a := by
        have h := searchLoopStep_snd o st qa a
        rw [hstep] at h
        exact h
      rw [ih st' qa', h2, passDelta_cons, List.append_assoc]

/-- A whole pass never touches `downloadQueue`. -/
lemma searchLoop_fst_downloadQueue (o : Oracles) (l : List SearchArea) :
    ∀ st qa, (l.foldl (searchLoopStep o) (st, qa)).1.downloadQueue
      = st.downloadQueue := by
  induction l with
  | nil => intro st qa; rfl
  | cons a l ih =>
      intro st qa
      rw [List.foldl_cons]
      rcases hstep : searchLoopStep o (st, qa) a with ⟨st', qa'⟩
      have hdq : st'.downloadQueue = st.downloadQueue := by
        have h := searchLoopStep_fst_downloadQueue o st qa a
        rw [hstep] at h
        exact h
      rw [ih st' qa', hdq]

/-- A whole pass only ever appends to `failedAreas`. -/
lemma searchLoop_failedAreas_mem (o : Oracles) (l : List SearchArea) :
    ∀ st qa n, n ∈ st.failedAreas →
      n ∈ (l.foldl (searchLoopStep o) (st, qa)).1.failedAreas := by
  induction l with
  | nil => intro st qa n h; exact h
  | cons a l ih =>
      intro st qa n h
      rw [List.foldl_cons]
      rcases hstep : searchLoopStep o (st, qa) a with ⟨st', qa'⟩
      have hmem : n ∈ st'.failedAreas := by
        have h' := searchLoopStep_failedAreas_mem o st qa a n h
        rw [hstep] at h'
        exact h'
      exact ih st' qa' n hmem

/-- A whole pass only ever appends to the outcome log. -/
lemma searchLoop_log_mem (o : Oracles) (l : List SearchArea) :
    ∀ st qa r, r ∈ st.log →
      r ∈ (l.foldl (searchLoopStep o) (st, qa)).1.log := by
  induction l with
  | nil => intro st qa r h; exact h
  | cons a l ih =>
      intro st qa r h
      rw [List.foldl_cons]
      rcases hstep : searchLoopStep o (st, qa) a with ⟨st', qa'⟩
      have hmem : r ∈ st'.log := by
        have h' := searchLoopStep_log_mem o st qa a r h
        rw [hstep] at h'
        exact h'
      exact ih st' qa' r hmem

/-- An area whose identifier resolution fails contributes nothing to the
buffer. -/
lemma stepDelta_idf_error (o : Oracles) (a : SearchArea) (e : String)
    (h : o.getAreaIdentifiers a.id = Except.error e) :
    stepDelta o a = [] := by
  cases harch : o.isAreaArchived a.name a.id <;> simp [stepDelta, harch, h]

/-- Exact effect of one loop iteration on an area that is not archived and
whose identifier resolution fails: name recorded into `failedAreas`, a
failure record written (with the absent `areaId`/`areaKey` properties, i.e.
`undefined`), buffer unchanged. -/
lemma searchLoopStep_idf_error (o : Oracles) (st : QState)
    (qa : List QueueEntry) (a : SearchArea) (e : String)
    (hidf : o.getAreaIdentifiers a.id = Except.error e)
    (harch : o.isAreaArchived a.name a.id = false) :
    searchLoopStep o (st, qa) a =
      ({ st with failedAreas := st.failedAreas ++ [a.name],
                 log := st.log ++ [LogEntry.failure a.name none none e] }, qa) := by
  simp [searchLoopStep, harch, hidf, SearchArea.areaId, SearchArea.areaKey,
        isInDownloadQueue_eq_false, isInFailedAreas_eq_false]

/-- Exact effect of one loop iteration on an area that is not archived,
whose identifier resolution succeeds but whose child discovery fails: name
recorded into `failedAreas`, a failure record written, and the root entry
(already pushed before the failing `getSubAreas` call, queue.mjs lines
47-56) stays in the buffer. -/
lemma searchLoopStep_child_error (o : Oracles) (st : QState)
    (qa : List QueueEntry) (a : SearchArea) (ids : Identifiers) (e : String)
    (hidf : o.getAreaIdentifiers a.id = Except.ok ids)
    (hch : o.subAreasOf ids.id = Except.error e)
    (harch : o.isAreaArchived a.name a.id = false) :
    searchLoopStep o (st, qa) a =
      ({ st with failedAreas := st.failedAreas ++ [a.name],
                 log := st.log ++ [LogEntry.failure a.name none none e] },
       qa ++ [{ name := a.name, id := ids.id, key := ids.key, subArea := false,
                parentId := none, areaData := ids.areaData }]) := by
  simp [searchLoopStep, harch, hidf, getSubAreas, hch, Except.map,
        SearchArea.areaId, SearchArea.areaKey,
        isInDownloadQueue_eq_false, isInFailedAreas_eq_false]

/-- A non-archived area whose child discovery fails contributes exactly its
root entry to the buffer. -/
lemma stepDelta_child_error (o : Oracles) (a : SearchArea) (ids : Identifiers)
    (e : String)
    (hidf : o.getAreaIdentifiers a.id = Except.ok ids)
    (hch : o.subAreasOf ids.id = Except.error e)
    (harch : o.isAreaArchived a.name a.id = false) :
    stepDelta o a =
      [{ name := a.name, id := ids.id, key := ids.key, subArea := false,
         parentId := none, areaData := ids.areaData }] := by
  simp [stepDelta, harch, hidf, getSubAreas, hch, Except.map]

/-- The callback on a well-formed response resolves and concatenates the
pass buffer onto the queue (queue.mjs lines 67-71). -/
lemma searchCallback_list (o : Oracles) (st : QState) (l : List SearchArea) :
    searchCallback o ⟨none, some (some (Body.results false (AreasField.list l)))⟩ st =
      (Except.ok (),
       if (runSearchLoop o st l).2.length ≠ 0 then
         { (runSearchLoop o st l).1 with
             downloadQueue := (runSearchLoop o st l).1.downloadQueue
               ++ (runSearchLoop o st l).2 }
       else (runSearchLoop o st l).1) := rfl

/-- The queue after a well-formed search pass. -/
lemma searchCallback_list_downloadQueue (o : Oracles) (st : QState)
    (l : List SearchArea) :
    (searchCallback o ⟨none, some (some (Body.results false (AreasField.list l)))⟩ st).2.downloadQueue
      = if (passDelta o l).length ≠ 0 then st.downloadQueue ++ passDelta o l
        else st.downloadQueue := by
  have h1 : (runSearchLoop o st l).2 = passDelta o l := by
    simpa [runSearchLoop] using searchLoop_snd o l st []
  have h2 : (runSearchLoop o st l).1.downloadQueue = st.downloadQueue := by
    simpa [runSearchLoop] using searchLoop_fst_downloadQueue o l st []
  rw [searchCallback_list]
  by_cases hc : (passDelta o l).length ≠ 0
  · simp [h1, h2, hc]
  · simp [h1, h2, hc]

/-- The failed-name list after a well-formed search pass. -/
lemma searchCallback_list_failedAreas (o : Oracles) (st : QState)
    (l : List SearchArea) :
    (searchCallback o ⟨none, some (some (Body.results false (AreasField.list l)))⟩ st).2.failedAreas
      = (runSearchLoop o st l).1.failedAreas := by
  rw [searchCallback_list]
  by_cases hc : (runSearchLoop o st l).2.length ≠ 0
  · simp [hc]
  · simp [hc]

/-- The outcome log after a well-formed search pass. -/
lemma searchCallback_list_log (o : Oracles) (st : QState)
    (l : List SearchArea) :
    (searchCallback o ⟨none, some (some (Body.results false (AreasField.list l)))⟩ st).2.log
      = (runSearchLoop o st l).1.log := by
  rw [searchCallback_list]
  by_cases hc : (runSearchLoop o st l).2.length ≠ 0
  · simp [hc]
  · simp [hc]

/-- The resumed tick never touches `downloadQueue`. -/
lemma finishStep_downloadQueue (o : Oracles) (st : QState) (areaData : QueueEntry) :
    (finishStep o st areaData).1.downloadQueue = st.downloadQueue := by
  cases h : o.archiveArea areaData.name areaData.id areaData.key areaData.areaData with
  | ret s m => cases s <;> simp [finishStep, h]
  | thrown m => simp [finishStep, h]

/-! Claim theorems. -/

/-- C10: both dedup predicates are vacuous — `isInDownloadQueue` compares
each queue entry's absent `areaId` property against the candidate id, and
`isInFailedAreas` compares the absent `areaName` property of the plain name
strings held in `failedAreas`, so each predicate returns false for every
argument. -/
theorem c10_dedup_predicates_vacuous :
    (∀ (q : List QueueEntry) (i : String), isInDownloadQueue q i = false) ∧
    (∀ (fa : List String) (n : String), isInFailedAreas fa n = false) :=
  ⟨isInDownloadQueue_eq_false, isInFailedAreas_eq_false⟩

/-- C1 (evaluation at the failing input): one `queueSearch` pass whose
search response lists the same unit ⟨name "N", id "X"⟩ twice resolves
normally and enqueues TWO entries with id "X" — the `queued(id)` check sees
neither the pass-local buffer nor the (nonexistent) `areaId` property, so
the same id is pushed twice while both copies are pending, refuting the
no-duplicate-enqueue claim. -/
theorem c1_same_pass_duplicate_enqueued_twice :
    ((queueSearch oStub (netOf [⟨"N", "X"⟩, ⟨"N", "X"⟩]) "q"
        ⟨[], [], []⟩).2.downloadQueue.filter fun e => e.id == "X").length = 2 ∧
    (queueSearch oStub (netOf [⟨"N", "X"⟩, ⟨"N", "X"⟩]) "q" ⟨[], [], []⟩).1
      = Except.ok () :=
  ⟨rfl, rfl⟩

/-- C2 (evaluation at the failing input): with `downloadQueue = [A, B]` and
an `archiveArea` latency of two timer intervals, the interval timer's second
firing starts a second `archiveArea` call while the first is still
outstanding: two archive operations are in flight simultaneously. -/
theorem c2_two_archive_calls_outstanding :
    (timerFire (fun _ => 2)
        (drainTick oStub (fun _ => 2)
          ⟨⟨[entryA, entryB], [], []⟩, []⟩)).inFlight.length = 2 :=
  rfl

/-- C3 (evaluation at the failing input): when `archiveArea` throws, the
tick's catch block evaluates the undeclared identifier `areaName` and the
resulting ReferenceError escapes `processQueueStep`. -/
theorem c3_thrown_error_escapes_tick :
    (processQueueStep oThrow ⟨[entryX], [], []⟩).2
      = some (JsError.referenceError "areaName") :=
  rfl

/-- C4 (evaluation at the failing input): when `archiveArea` throws, the
entry is removed from the queue but NO failure record is written and the
name is NOT added to the failed set — the broken catch block dies before
any bookkeeping runs. -/
theorem c4_thrown_error_loses_bookkeeping :
    (processQueueStep oThrow ⟨[entryX], [], []⟩).1.log = [] ∧
    (processQueueStep oThrow ⟨[entryX], [], []⟩).1.failedAreas = [] ∧
    (processQueueStep oThrow ⟨[entryX], [], []⟩).1.downloadQueue = [] :=
  ⟨rfl, rfl, rfl⟩

/-- C5 (evaluation at the failing input): a discovered unit whose id "X" is
already queued (entryX is in the queue) and whose name "N" is already in
the failed set is nevertheless appended again, because both dedup
predicates test absent properties. -/
theorem c5_queued_and_failed_unit_appended_again :
    (queueSearch oStub (netOf [⟨"N", "X"⟩]) "q"
        ⟨[entryX], ["N"], []⟩).2.downloadQueue = [entryX, entryX] :=
  rfl

/-- C6: batch resilience — if discovery fails for one unit `a` of a search
result (and `a` is not skipped as archived), `queueSearch` still resolves,
`a`'s name is recorded into the failed set and a failure record for `a` is
written, and the remaining units are still processed and enqueued.  Both
discovery failure modes are covered: when identifier resolution fails the
queue ends up exactly as it would for the same result list without `a`;
when identifier resolution succeeds but child discovery fails, the queue
receives the other units' contributions unchanged around `a`'s root entry
(which was pushed before the failing child call and stays, queue.mjs lines
47-65). -/
theorem c6_batch_resilience (o : Oracles) (query : String) (st : QState)
    (l1 l2 : List SearchArea) (a : SearchArea)
    (harch : o.isAreaArchived a.name a.id = false) :
    (∀ e : String, o.getAreaIdentifiers a.id = Except.error e →
      (queueSearch o (netOf (l1 ++ [a] ++ l2)) query st).1 = Except.ok () ∧
      (queueSearch o (netOf (l1 ++ [a] ++ l2)) query st).2.downloadQueue
        = (queueSearch o (netOf (l1 ++ l2)) query st).2.downloadQueue ∧
      a.name ∈ (queueSearch o (netOf (l1 ++ [a] ++ l2)) query st).2.failedAreas ∧
      LogEntry.failure a.name none none e
        ∈ (queueSearch o (netOf (l1 ++ [a] ++ l2)) query st).2.log) ∧
    (∀ (ids : Identifiers) (e : String),
      o.getAreaIdentifiers a.id = Except.ok ids →
      o.subAreasOf ids.id = Except.error e →
      (queueSearch o (netOf (l1 ++ [a] ++ l2)) query st).1 = Except.ok () ∧
      (queueSearch o (netOf (l1 ++ [a] ++ l2)) query st).2.downloadQueue
        = st.downloadQueue ++ passDelta o l1
            ++ [{ name := a.name, id := ids.id, key := ids.key, subArea := false,
                  parentId := none, areaData := ids.areaData }]
            ++ passDelta o l2 ∧
      a.name ∈ (queueSearch o (netOf (l1 ++ [a] ++ l2)) query st).2.failedAreas ∧
      LogEntry.failure a.name none none e
        ∈ (queueSearch o (netOf (l1 ++ [a] ++ l2)) query st).2.log) := by
  have hq : ∀ l : List SearchArea, queueSearch o (netOf l) query st
      = searchCallback o
          ⟨none, some (some (Body.results false (AreasField.list l)))⟩ st :=
    fun l => rfl
  constructor
  · intro e hidf
    refine ⟨?_, ?_, ?_, ?_⟩
    · rw [hq, searchCallback_list]
    · rw [hq, hq, searchCallback_list_downloadQueue, searchCallback_list_downloadQueue]
      have hpd : passDelta o (l1 ++ [a] ++ l2) = passDelta o (l1 ++ l2) := by
        rw [passDelta_append, passDelta_append, passDelta_append, passDelta_cons,
            stepDelta_idf_error o a e hidf, passDelta_nil]
        simp
      rw [hpd]
    · rw [hq, searchCallback_list_failedAreas]
      unfold runSearchLoop
      rw [List.foldl_append, List.foldl_append]
      rcases hfold : List.foldl (searchLoopStep o) (st, ([] : List QueueEntry)) l1
        with ⟨st1, qa1⟩
      rw [List.foldl_cons, List.foldl_nil,
          searchLoopStep_idf_error o st1 qa1 a e hidf harch]
      exact searchLoop_failedAreas_mem o l2 _ qa1 a.name (by simp)
    · rw [hq, searchCallback_list_log]
      unfold runSearchLoop
      rw [List.foldl_append, List.foldl_append]
      rcases hfold : List.foldl (searchLoopStep o) (st, ([] : List QueueEntry)) l1
        with ⟨st1, qa1⟩
      rw [List.foldl_cons, List.foldl_nil,
          searchLoopStep_idf_error o st1 qa1 a e hidf harch]
      exact searchLoop_log_mem o l2 _ qa1 _ (by simp)
  · intro ids e hidf hch
    have hpd : passDelta o (l1 ++ [a] ++ l2)
        = passDelta o l1
            ++ [{ name := a.name, id := ids.id, key := ids.key, subArea := false,
                  parentId := none, areaData := ids.areaData }]
            ++ passDelta o l2 := by
      rw [passDelta_append, passDelta_append, passDelta_cons,
          stepDelta_child_error o a ids e hidf hch harch, passDelta_nil]
      simp
    refine ⟨?_, ?_, ?_, ?_⟩
    · rw [hq, searchCallback_list]
    · rw [hq, searchCallback_list_downloadQueue, hpd]
      have hne : (passDelta o l1
          ++ [({ name := a.name, id := ids.id, key := ids.key, subArea := false,
                 parentId := none, areaData := ids.areaData } : QueueEntry)]
          ++ passDelta o l2).length ≠ 0 := by simp
      rw [if_pos hne]
      simp
    · rw [hq, searchCallback_list_failedAreas]
      unfold runSearchLoop
      rw [List.foldl_append, List.foldl_append]
      rcases hfold : List.foldl (searchLoopStep o) (st, ([] : List QueueEntry)) l1
        with ⟨st1, qa1⟩
      rw [List.foldl_cons, List.foldl_nil,
          searchLoopStep_child_error o st1 qa1 a ids e hidf hch harch]
      exact searchLoop_failedAreas_mem o l2 _ _ a.name (by simp)
    · rw [hq, searchCallback_list_log]
      unfold runSearchLoop
      rw [List.foldl_append, List.foldl_append]
      rcases hfold : List.foldl (searchLoopStep o) (st, ([] : List QueueEntry)) l1
        with ⟨st1, qa1⟩
      rw [List.foldl_cons, List.foldl_nil,
          searchLoopStep_child_error o st1 qa1 a ids e hidf hch harch]
      exact searchLoop_log_mem o l2 _ _ _ (by simp)

/-- C6 witness: two concrete three-unit searches — in the first, unit 2's
identifier resolution fails; in the second, every unit's child discovery
fails, so unit 2's failure is a child-resolution failure while units 1 and
3 still contribute their root entries around unit 2's. -/
theorem c6_batch_resilience_witness :
    ((queueSearch oFailU2 (netOf ([⟨"n1", "u1"⟩] ++ [⟨"n2", "u2"⟩] ++ [⟨"n3", "u3"⟩]))
        "q" ⟨[], [], []⟩).1 = Except.ok () ∧
     (queueSearch oFailU2 (netOf ([⟨"n1", "u1"⟩] ++ [⟨"n2", "u2"⟩] ++ [⟨"n3", "u3"⟩]))
        "q" ⟨[], [], []⟩).2.downloadQueue
       = (queueSearch oFailU2 (netOf ([⟨"n1", "u1"⟩] ++ [⟨"n3", "u3"⟩]))
           "q" ⟨[], [], []⟩).2.downloadQueue ∧
     "n2" ∈ (queueSearch oFailU2 (netOf ([⟨"n1", "u1"⟩] ++ [⟨"n2", "u2"⟩] ++ [⟨"n3", "u3"⟩]))
        "q" ⟨[], [], []⟩).2.failedAreas ∧
     LogEntry.failure "n2" none none "boom"
       ∈ (queueSearch oFailU2 (netOf ([⟨"n1", "u1"⟩] ++ [⟨"n2", "u2"⟩] ++ [⟨"n3", "u3"⟩]))
           "q" ⟨[], [], []⟩).2.log) ∧
    ((queueSearch oSubFail (netOf ([⟨"n1", "u1"⟩] ++ [⟨"n2", "u2"⟩] ++ [⟨"n3", "u3"⟩]))
        "q" ⟨[], [], []⟩).1 = Except.ok () ∧
     (queueSearch oSubFail (netOf ([⟨"n1", "u1"⟩] ++ [⟨"n2", "u2"⟩] ++ [⟨"n3", "u3"⟩]))
        "q" ⟨[], [], []⟩).2.downloadQueue
       = [⟨"n1", "u1", "k", false, none, "d"⟩,
          ⟨"n2", "u2", "k", false, none, "d"⟩,
          ⟨"n3", "u3", "k", false, none, "d"⟩] ∧
     "n2" ∈ (queueSearch oSubFail (netOf ([⟨"n1", "u1"⟩] ++ [⟨"n2", "u2"⟩] ++ [⟨"n3", "u3"⟩]))
        "q" ⟨[], [], []⟩).2.failedAreas ∧
     LogEntry.failure "n2" none none "kaboom"
       ∈ (queueSearch oSubFail (netOf ([⟨"n1", "u1"⟩] ++ [⟨"n2", "u2"⟩] ++ [⟨"n3", "u3"⟩]))
           "q" ⟨[], [], []⟩).2.log) :=
  ⟨(c6_batch_resilience oFailU2 "q" ⟨[], [], []⟩ [⟨"n1", "u1"⟩] [⟨"n3", "u3"⟩]
      ⟨"n2", "u2"⟩ rfl).1 "boom" rfl,
   (c6_batch_resilience oSubFail "q" ⟨[], [], []⟩ [⟨"n1", "u1"⟩] [⟨"n3", "u3"⟩]
      ⟨"n2", "u2"⟩ rfl).2 ⟨"u2", "k", "d"⟩ "kaboom" rfl rfl⟩

/-- C7 (evaluation at the failing input): a response whose body carries a
truthy `error` field together with a valid `areas` list makes `queueSearch`
reject — yet the discovered unit is still appended to the queue, because no
`reject` in the callback is followed by a `return`.  The claim's required
atomicity (reject implies queue unchanged) fails. -/
theorem c7_error_response_rejects_but_enqueues :
    (queueSearch oStub (netErrorWith [⟨"N", "X"⟩]) "q" ⟨[], [], []⟩).1
      = Except.error "Missing body" ∧
    (queueSearch oStub (netErrorWith [⟨"N", "X"⟩]) "q" ⟨[], [], []⟩).2.downloadQueue
      = [entryX] :=
  ⟨rfl, rfl⟩

/-- C8: FIFO drain with immediate child expansion — a tick pops exactly the
front entry, and on resolver success the search loop appends one root entry
(`subArea = false`, `parentId = null`) followed immediately by that unit's
children, each with `subArea = true` and `parentId` set to the resolved id,
in the order returned. -/
theorem c8_fifo_and_child_expansion (o : Oracles) (st1 : QState)
    (areaData : QueueEntry) (rest : List QueueEntry)
    (h1 : st1.downloadQueue = areaData :: rest)
    (st2 : QState) (qa : List QueueEntry) (a : SearchArea)
    (ids : Identifiers) (cs : List SearchArea)
    (harch : o.isAreaArchived a.name a.id = false)
    (hidf : o.getAreaIdentifiers a.id = Except.ok ids)
    (hch : o.subAreasOf ids.id = Except.ok cs) :
    (processQueueStep o st1).1.downloadQueue = rest ∧
    (searchLoopStep o (st2, qa) a).2
      = qa ++ ({ name := a.name, id := ids.id, key := ids.key, subArea := false,
                 parentId := none, areaData := ids.areaData } : QueueEntry)
          :: cs.map (fun c =>
               ({ name := c.name, id := c.id, key := "", subArea := true,
                  parentId := some ids.id, areaData := "" } : QueueEntry)) ∧
    ∀ c : QueueEntry,
      c ∈ cs.map (fun c =>
            ({ name := c.name, id := c.id, key := "", subArea := true,
               parentId := some ids.id, areaData := "" } : QueueEntry)) →
      c.subArea = true ∧ c.parentId = some ids.id := by
  refine ⟨?_, ?_, ?_⟩
  · simp only [processQueueStep, h1]
    rw [finishStep_downloadQueue]
  · rw [searchLoopStep_snd]
    simp [stepDelta, harch, hidf, getSubAreas, hch, Except.map]
  · intro c hc
    simp only [List.mem_map] at hc
    obtain ⟨c0, _, rfl⟩ := hc
    exact ⟨rfl, rfl⟩

/-- C8 witness: concrete instance with a two-entry queue and one child. -/
theorem c8_fifo_and_child_expansion_witness :
    (processQueueStep oKids ⟨[entryA, entryB], [], []⟩).1.downloadQueue = [entryB] ∧
    (searchLoopStep oKids (⟨[], [], []⟩, []) ⟨"N", "X"⟩).2
      = [] ++ ({ name := "N", id := "X", key := "k", subArea := false,
                 parentId := none, areaData := "d" } : QueueEntry)
          :: ([⟨"c1", "s1"⟩] : List SearchArea).map (fun c =>
               ({ name := c.name, id := c.id, key := "", subArea := true,
                  parentId := some "X", areaData := "" } : QueueEntry)) ∧
    ∀ c : QueueEntry,
      c ∈ ([⟨"c1", "s1"⟩] : List SearchArea).map (fun c =>
            ({ name := c.name, id := c.id, key := "", subArea := true,
               parentId := some "X", areaData := "" } : QueueEntry)) →
      c.subArea = true ∧ c.parentId = some "X" :=
  c8_fifo_and_child_expansion oKids ⟨[entryA, entryB], [], []⟩ entryA [entryB] rfl
    ⟨[], [], []⟩ [] ⟨"N", "X"⟩ ⟨"X", "k", "d"⟩ [⟨"c1", "s1"⟩] rfl rfl rfl

/-- C9: the spec's worked example — queue [A, B], archiving A succeeds and B
fails with message "timeout"; after two ticks the queue is empty, the
outcome recorder holds exactly one success record for A and one failure
record for B with message "timeout", and the failed set is exactly
a single name "B". -/
theorem c9_worked_example :
    (processQueueStep oExample
        (processQueueStep oExample ⟨[entryA, entryB], [], []⟩).1).1
      = ⟨[], ["B"], [LogEntry.success "A" "A" "" false none,
                     LogEntry.failure "B" (some "B") (some "") "timeout"]⟩ :=
  rfl
